import Mathlib

/-
Verification development for the TeaEditor prefab synchronizer (src/Prefab.cpp)
and the command-based undo/redo system (src/UndoRedo.cpp), shallowly embedded
in Lean 4.  Reflective component/property access (rttr), the rapidjson DOM and
the engine scene manager are modelled at the granularity the two source files
use them; every definition mirrors the corresponding C++ code.
-/

set_option maxHeartbeats 1000000

namespace TeaEditor

/-- Serialized property values carried by a prefab document and stored in live
components.  The synchronizer only copies values verbatim (deserialize then
set), so an abstract value type with decidable equality suffices. -/
inductive Val where
  | vint : Int → Val
  | vstr : String → Val
deriving DecidableEq, Repr

/-- First-match association-list lookup keyed by strings.  It models both
rapidjson member access (HasMember / operator[]) and rttr name-keyed
component/property access used throughout Prefab.cpp. -/
def lookupAssoc {α : Type} : List (String × α) → String → Option α
  | [], _ => none
  | kv :: rest, k => if kv.1 = k then some kv.2 else lookupAssoc rest k

/-- In-place keyed update of an association list: every entry whose key equals
`k` has its value replaced, other entries are untouched.  It models rttr
prop.set_value on an existing property slot (Prefab.cpp line 159) and the
in-place mutation of a component looked up from the registry; updating a key
that is absent changes nothing, matching a failed set_value whose boolean
result the source ignores. -/
def setAssoc {α : Type} : List (String × α) → String → α → List (String × α)
  | [], _, _ => []
  | kv :: rest, k, v =>
    if kv.1 = k then (k, v) :: setAssoc rest k v else kv :: setAssoc rest k v

/-- The property bag of one live component instance: property name to value. -/
abbrev Props := List (String × Val)

/-- One serialized component inside the master document: property name to
serialized value. -/
abbrev ComponentData := List (String × Val)

/-- The object stored under the "Entity" member of a master prefab document:
component type name to serialized component data. -/
abbrev EntityData := List (String × ComponentData)

/-- One entry of OverrideComponent::components: the name of a component the
user added locally on the instance (Prefab.cpp lines 90-100). -/
structure OvComponentEntry where
  componentName : String
deriving DecidableEq, Repr

/-- One entry of OverrideComponent::properties: the path
"componentName/propertyName" of a property the user overrode locally
(Prefab.cpp lines 143-147). -/
structure OvProperty where
  path : String
deriving DecidableEq, Repr

/-- The override ledger attached to every prefab instance: the handle of the
master prefab it derives from, the locally added components, and the locally
overridden property paths.  Per the spec the synchronizer only reads the
ledger, never writes it, so it is modelled as a fixed field of the entity. -/
structure OverrideComponent where
  masterPrefabHandle : Nat
  components : List OvComponentEntry
  properties : List OvProperty
deriving DecidableEq, Repr

/-- The linear scan over overrideComp.components of Prefab.cpp lines 91-100
deciding whether `typeName` was added locally by the user. -/
def localAdded : List OvComponentEntry → String → Bool
  | [], _ => false
  | c :: rest, n => if c.componentName = n then true else localAdded rest n

/-- The find_if over overrideComp.properties of Prefab.cpp lines 144-147
deciding whether a property path is recorded as overridden. -/
def isOverridden : List OvProperty → String → Bool
  | [], _ => false
  | p :: rest, path => if p.path = path then true else isOverridden rest path

/-- A registered component type descriptor (rttr::type): its name and its
ordered property descriptors, each property carrying the value a
default-constructed component holds in that slot. -/
structure ComponentType where
  name : String
  props : List (String × Val)
deriving DecidableEq, Repr

/-- A prefab instance as seen by updateAllPrefabInstance: its override ledger
(read through getComponent<OverrideComponent> at Prefab.cpp line 68) and its
attached components keyed by type name. -/
structure Entity where
  overrideComp : OverrideComponent
  comps : List (String × Props)
deriving DecidableEq, Repr

/-- entity.hasComponent(typeName) (Prefab.cpp line 88). -/
def Entity.hasComponent (e : Entity) (n : String) : Bool :=
  (lookupAssoc e.comps n).isSome

/-- entity.addComponent(typeName) (Prefab.cpp line 108): attaches a
default-constructed component of the given registered type. -/
def Entity.addComponent (e : Entity) (ct : ComponentType) : Entity :=
  { e with comps := e.comps ++ [(ct.name, ct.props)] }

/-- Removal of every component entry with the given type name. -/
def removeComps : List (String × Props) → String → List (String × Props)
  | [], _ => []
  | kv :: rest, n => if kv.1 = n then removeComps rest n else kv :: removeComps rest n

/-- entity.removeComponent(typeName) (Prefab.cpp line 118). -/
def Entity.removeComponent (e : Entity) (n : String) : Entity :=
  { e with comps := removeComps e.comps n }

/-- Writing back the mutated component instance: the property loop of
Prefab.cpp lines 136-161 mutates the component obtained from the registry in
place, which over the association-list model is a keyed value replacement. -/
def Entity.setComponent (e : Entity) (n : String) (ps : Props) : Entity :=
  { e with comps := setAssoc e.comps n ps }

/-- The body of the per-property loop of Prefab.cpp lines 136-161: skip
properties named "Scene ID" or "Parent", skip paths recorded in the override
ledger, otherwise deserialize the master's value (when the master defines one)
into the property and write it.  Serialize::deserializeEachProperty is engine
code outside src/; modelled from the spec: it converts the serialized master
value into the property's expected type, i.e. the value is copied verbatim. -/
def syncProp (ov : OverrideComponent) (typeName : String) (componentData : ComponentData)
    (ps : Props) (propName : String) : Props :=
  let propertyPath := typeName ++ "/" ++ propName
  if propName = "Scene ID" then ps
  else if propName = "Parent" then ps
  else if isOverridden ov.properties propertyPath then ps
  else
    match lookupAssoc componentData propName with
    | some v => setAssoc ps propName v
    | none => ps

/-- The full property loop (Prefab.cpp lines 136-161) over the ordered
property names of the component type descriptor. -/
def syncProps (ov : OverrideComponent) (typeName : String) (componentData : ComponentData) :
    List String → Props → Props
  | [], ps => ps
  | q :: rest, ps => syncProps ov typeName componentData rest (syncProp ov typeName componentData ps q)

/-- The property-synchronization section of Prefab.cpp lines 122-162: if the
master document has a member for this component type, look the component up on
the entity (an invalid lookup is warned about and skipped), then run the
property loop and store the mutated component. -/
def propSyncSection (entityData : EntityData) (ct : ComponentType) (e : Entity) : Entity :=
  match lookupAssoc entityData ct.name with
  | none => e
  | some componentData =>
    match lookupAssoc e.comps ct.name with
    | none => e
    | some ps =>
      e.setComponent ct.name
        (syncProps e.overrideComp ct.name componentData (ct.props.map Prod.fst) ps)

/-- The body of the per-component-type loop of Prefab.cpp lines 81-163:
skip "Scene ID"; compute the three booleans of lines 87-100; Case 1 (add) at
lines 103-109 with the "Child"/"Parent" continue; Case 2 (remove) at lines
110-120 with the "UUIDComponent"/"OverrideComponent" continue; then, unless a
continue fired, the property-synchronization section. -/
def processComponentType (entityData : EntityData) (ct : ComponentType) (e : Entity) : Entity :=
  let typeName := ct.name
  if typeName = "Scene ID" then e
  else
    let existsInPrefabAsset := (lookupAssoc entityData typeName).isSome
    let existsInPrefabInstance := e.hasComponent typeName
    let isLocallyAdded := localAdded e.overrideComp.components typeName
    if existsInPrefabAsset && !existsInPrefabInstance && !isLocallyAdded then
      if typeName = "Child" ∨ typeName = "Parent" then e
      else propSyncSection entityData ct (e.addComponent ct)
    else if !existsInPrefabAsset && existsInPrefabInstance then
      if typeName = "UUIDComponent" ∨ typeName = "OverrideComponent" then e
      else if !isLocallyAdded then propSyncSection entityData ct (e.removeComponent typeName)
      else propSyncSection entityData ct e
    else propSyncSection entityData ct e

/-- The loop over all registered component types (Prefab.cpp lines 78-163)
applied to one matching instance. -/
def updateEntity (entityData : EntityData) : List ComponentType → Entity → Entity
  | [], e => e
  | ct :: rest, e => updateEntity entityData rest (processComponentType entityData ct e)

/-- The rapidjson document returned by loadPrefab, at the granularity
updateAllPrefabInstance inspects it: either Null (IsNull() is true), or a
parsed document whose "Entity" member is not an object (the continue at
Prefab.cpp lines 72-75), or a document with an "Entity" object mapping
component type names to serialized component data. -/
inductive RDoc where
  | nullDoc : RDoc
  | nonObjectEntity : RDoc
  | withEntity : EntityData → RDoc
deriving DecidableEq, Repr

/-- prefabDoc.IsNull() (Prefab.cpp line 53). -/
def RDoc.isNull : RDoc → Bool
  | .nullDoc => true
  | _ => false

/-- A master prefab file on disk as loadPrefab can encounter it: the file
cannot be opened, the file opens but its content fails to parse, or the
content parses to some document (possibly the valid JSON text "null", which
parses to a Null document). -/
inductive PrefabFile where
  | missing : PrefabFile
  | malformed : PrefabFile
  | wellFormed : RDoc → PrefabFile
deriving DecidableEq, Repr

/-- HierarchyPanel::loadPrefab (Prefab.cpp lines 24-45), returning the
document together with the log messages it emits.  An unopenable file logs
and returns the default-constructed (Null) document (lines 28-32).  A parse
error is logged (lines 39-42) and the document produced by the failed parse
is returned anyway; per rapidjson semantics a failed ParseStream never assigns
the document value, which therefore stays Null.  A successful parse returns
the parsed document with no log. -/
def loadPrefab : PrefabFile → RDoc × List String
  | .missing => (RDoc.nullDoc, ["Failed to open prefab file"])
  | .malformed => (RDoc.nullDoc, ["Failed to parse prefab file"])
  | .wellFormed d => (d, [])

/-- The per-entity body of the instance loop (Prefab.cpp lines 64-169): an
entity whose override ledger names a different master handle is skipped; a
matching entity is reconciled against the master's "Entity" object when that
member is an object, and skipped otherwise. -/
def syncEntity (handle : Nat) (doc : RDoc) (cts : List ComponentType) (e : Entity) : Entity :=
  if e.overrideComp.masterPrefabHandle = handle then
    match doc with
    | .nullDoc => e
    | .nonObjectEntity => e
    | .withEntity entityData => updateEntity entityData cts e
  else e

/-- HierarchyPanel::updateAllPrefabInstance (Prefab.cpp lines 46-170) for one
master handle: load the master document, bail out when it is Null, otherwise
reconcile every viewed prefab instance.  The result is the final entity list
together with the log of the load step. -/
def updateAllPrefabInstance (handle : Nat) (file : PrefabFile) (cts : List ComponentType)
    (es : List Entity) : List Entity × List String :=
  let r := loadPrefab file
  if r.1.isNull then (es, r.2)
  else (es.map (syncEntity handle r.1 cts), r.2)

/-- The value, if any, that one run of the property-loop body writes into
property `q`: nothing for the protected names "Scene ID" and "Parent",
nothing for an overridden path, nothing when the master does not define the
property, and otherwise the master's value.  This is the condition of
Prefab.cpp lines 140-150 packaged as an optional value; syncProp is proved
equal to a write of exactly this. -/
def writesProp (ov : OverrideComponent) (typeName : String) (componentData : ComponentData)
    (q : String) : Option Val :=
  if q = "Scene ID" then none
  else if q = "Parent" then none
  else if isOverridden ov.properties (typeName ++ "/" ++ q) then none
  else lookupAssoc componentData q

/-- A sample component-type registry for concrete witnesses: a Transform, a
SoundComponent and a Tag type. -/
def sampleCts : List ComponentType :=
  [⟨"Transform", [("position", Val.vint 0), ("locked", Val.vint 7)]⟩,
   ⟨"SoundComponent", [("volume", Val.vint 1)]⟩,
   ⟨"Tag", [("label", Val.vstr "")]⟩]

/-- A sample master document for concrete witnesses: Transform with new
values, Tag present, SoundComponent absent. -/
def sampleEd : EntityData :=
  [("Transform", [("position", Val.vint 3), ("locked", Val.vint 9)]),
   ("Tag", [("label", Val.vstr "Enemy")])]

/-- A sample prefab instance for concrete witnesses: master handle 5, the
path Transform/locked overridden, carrying a Transform and a locally present
(but not ledger-recorded) SoundComponent. -/
def sampleEntity : Entity :=
  ⟨⟨5, [], [⟨"Transform/locked"⟩]⟩,
   [("Transform", [("position", Val.vint 0), ("locked", Val.vint 7)]),
    ("SoundComponent", [("volume", Val.vint 2)])]⟩

end TeaEditor

namespace Cmd

/-- One virtual call the CommandManager makes into a Command object
(UndoRedo.cpp lines 24, 45 and 60): the trace of these events records which
command methods were invoked, in order. -/
inductive CmdEvent (C : Type) where
  | callExecute : C → CmdEvent C
  | callUndo : C → CmdEvent C
  | callRedo : C → CmdEvent C
deriving DecidableEq, Repr

/-- The virtual-dispatch table of a concrete Command class: each method may
update the command's own stored state (its members) and the world it acts on.
CommandManager itself is agnostic to these semantics. -/
structure Semantics (C W : Type) where
  onExecute : C → W → C × W
  onUndo : C → W → C × W
  onRedo : C → W → C × W

/-- CommandManager's two stacks (UndoRedo.hpp lines 56-57), most recent
command first. -/
structure CommandManager (C : Type) where
  undoStack : List C
  redoStack : List C
deriving DecidableEq, Repr

/-- CommandManager::executeCommand (UndoRedo.cpp lines 22-34): call the
command's execute, push it onto the undo stack, pop the redo stack empty.
Returns the new manager, the new world, and the trace of command calls. -/
def executeCommand {C W : Type} (sem : Semantics C W) (m : CommandManager C) (w : W)
    (cmd : C) : CommandManager C × W × List (CmdEvent C) :=
  let r := sem.onExecute cmd w
  (⟨r.1 :: m.undoStack, []⟩, r.2, [CmdEvent.callExecute cmd])

/-- CommandManager::undo (UndoRedo.cpp lines 36-49): return unchanged when
the undo stack is empty, otherwise pop the top command, call its undo, and
push it onto the redo stack. -/
def managerUndo {C W : Type} (sem : Semantics C W) (m : CommandManager C) (w : W) :
    CommandManager C × W × List (CmdEvent C) :=
  match m.undoStack with
  | [] => (m, w, [])
  | c :: rest =>
    let r := sem.onUndo c w
    (⟨rest, r.1 :: m.redoStack⟩, r.2, [CmdEvent.callUndo c])

/-- CommandManager::redo (UndoRedo.cpp lines 51-64): return unchanged when
the redo stack is empty, otherwise pop the top command, call its redo, and
push it onto the undo stack. -/
def managerRedo {C W : Type} (sem : Semantics C W) (m : CommandManager C) (w : W) :
    CommandManager C × W × List (CmdEvent C) :=
  match m.redoStack with
  | [] => (m, w, [])
  | c :: rest =>
    let r := sem.onRedo c w
    (⟨r.1 :: m.undoStack, rest⟩, r.2, [CmdEvent.callRedo c])

/-- A three-component vector as used by TransformEntityCommand.  glm::vec3
stores floats, but the command only copies stored values into the transform
and never computes with them, so an exact scalar type is a faithful model of
the data flow. -/
structure Vec3 where
  x : Int
  y : Int
  z : Int
deriving DecidableEq, Repr

/-- The observable transform state of the target entity: position, rotation
and scale. -/
structure Transform where
  position : Vec3
  rotation : Vec3
  scale : Vec3
deriving DecidableEq, Repr

/-- TransformEntityCommand's stored members (UndoRedo.hpp lines 140-149): the
old and new position/rotation/scale triples captured at construction. -/
structure TransformEntityCommand where
  m_oldPosition : Vec3
  m_oldRotation : Vec3
  m_oldScale : Vec3
  m_newPosition : Vec3
  m_newRotation : Vec3
  m_newScale : Vec3
deriving DecidableEq, Repr

/-- TransformEntityCommand::applyTransform (UndoRedo.cpp lines 152-161): a
no-op when the entity is invalid or lacks a Transform component (modelled as
`none`), otherwise overwrite position, rotation and scale. -/
def applyTransform (pos rot scale : Vec3) : Option Transform → Option Transform
  | none => none
  | some _ => some ⟨pos, rot, scale⟩

/-- TransformEntityCommand::execute (UndoRedo.cpp lines 104-118): apply the
new transform. -/
def TransformEntityCommand.execute (c : TransformEntityCommand)
    (s : Option Transform) : Option Transform :=
  applyTransform c.m_newPosition c.m_newRotation c.m_newScale s

/-- TransformEntityCommand::undo (UndoRedo.cpp lines 120-134): revert to the
stored old transform. -/
def TransformEntityCommand.undo (c : TransformEntityCommand)
    (s : Option Transform) : Option Transform :=
  applyTransform c.m_oldPosition c.m_oldRotation c.m_oldScale s

/-- TransformEntityCommand::redo (UndoRedo.cpp lines 136-150): reapply the
new transform. -/
def TransformEntityCommand.redo (c : TransformEntityCommand)
    (s : Option Transform) : Option Transform :=
  applyTransform c.m_newPosition c.m_newRotation c.m_newScale s

/-- ChangeMaterialInstanceCommand's stored members (UndoRedo.hpp lines
187-192): the captured property-value array (a sequence of material handles,
modelled as Nat identifiers), the sequential index, and the old and new
material UUIDs.  The rttr instance/property addressing locates one array-
valued property on one component; the observable state is that array. -/
structure ChangeMaterialInstanceCommand where
  m_propValue : List Nat
  m_index : Nat
  m_oldValue : Nat
  m_newValue : Nat
deriving DecidableEq, Repr

/-- ChangeMaterialInstanceCommand::applyValue (UndoRedo.cpp lines 191-211):
write `val` into the captured array at the stored index and store the array
back through the property; when the index is out of the array's range,
sequential_view::set_value fails and the method returns with the property
untouched.  All calls write the same index of the same captured member
m_propValue, so each call's effect equals a single set on the captured
array. -/
def ChangeMaterialInstanceCommand.applyValue (c : ChangeMaterialInstanceCommand)
    (val : Nat) (s : List Nat) : List Nat :=
  if c.m_index < c.m_propValue.length then c.m_propValue.set c.m_index val else s

/-- ChangeMaterialInstanceCommand::execute (UndoRedo.cpp lines 172-176). -/
def ChangeMaterialInstanceCommand.execute (c : ChangeMaterialInstanceCommand)
    (s : List Nat) : List Nat :=
  c.applyValue c.m_newValue s

/-- ChangeMaterialInstanceCommand::undo (UndoRedo.cpp lines 178-182). -/
def ChangeMaterialInstanceCommand.undo (c : ChangeMaterialInstanceCommand)
    (s : List Nat) : List Nat :=
  c.applyValue c.m_oldValue s

/-- ChangeMaterialInstanceCommand::redo (UndoRedo.cpp lines 184-188). -/
def ChangeMaterialInstanceCommand.redo (c : ChangeMaterialInstanceCommand)
    (s : List Nat) : List Nat :=
  c.applyValue c.m_newValue s

/-- Modelled from the spec: the engine scene manager consumed by
CreateEntityCommand (spec section 6 external interfaces), which is engine
code outside src/.  `nextUUID` is the source of freshly minted entity
identifiers and `live` the identifiers of currently live entities, most
recently created first. -/
structure SceneState where
  nextUUID : Nat
  live : List Nat
deriving DecidableEq, Repr

/-- Modelled from the spec: sceneManager->createEntity() mints a fresh UUID
and creates a live entity carrying it, returning the new entity's UUID. -/
def createEntity (s : SceneState) : Nat × SceneState :=
  (s.nextUUID, ⟨s.nextUUID + 1, s.nextUUID :: s.live⟩)

/-- Modelled from the spec: sceneManager->createEntityWithUUID(uuid) creates
a live entity carrying exactly the given UUID; no fresh identifier is
minted. -/
def createEntityWithUUID (u : Nat) (s : SceneState) : SceneState :=
  ⟨s.nextUUID, u :: s.live⟩

/-- Modelled from the spec: sceneManager->destroyEntity removes the entity
from the scene. -/
def destroyEntity (u : Nat) (s : SceneState) : SceneState :=
  ⟨s.nextUUID, s.live.erase u⟩

/-- CreateEntityCommand's stored member m_uuid (UndoRedo.hpp line 97), the
UUID recorded at execute time. -/
structure CreateEntityCommand where
  m_uuid : Nat
deriving DecidableEq, Repr

/-- CreateEntityCommand::execute (UndoRedo.cpp lines 69-77): create a new
entity and store its UUID in the command. -/
def CreateEntityCommand.execute (_c : CreateEntityCommand) (s : SceneState) :
    CreateEntityCommand × SceneState :=
  let r := createEntity s
  (⟨r.1⟩, r.2)

/-- CreateEntityCommand::undo (UndoRedo.cpp lines 79-86): destroy the created
entity. -/
def CreateEntityCommand.undo (c : CreateEntityCommand) (s : SceneState) :
    CreateEntityCommand × SceneState :=
  (c, destroyEntity c.m_uuid s)

/-- CreateEntityCommand::redo (UndoRedo.cpp lines 88-95): recreate the entity
with the stored UUID. -/
def CreateEntityCommand.redo (c : CreateEntityCommand) (s : SceneState) :
    CreateEntityCommand × SceneState :=
  (c, createEntityWithUUID c.m_uuid s)

/-- The dispatch table of CreateEntityCommand, tying its three methods to the
manager's virtual calls. -/
def createEntitySem : Semantics CreateEntityCommand SceneState :=
  ⟨CreateEntityCommand.execute, CreateEntityCommand.undo, CreateEntityCommand.redo⟩

end Cmd

namespace TeaEditor

/-- Looking a key up after a keyed update: the updated key keeps its
presence and now maps to the new value; every other key is untouched. -/
theorem lookupAssoc_setAssoc {α : Type} (l : List (String × α)) (k : String) (v : α)
    (p : String) :
    lookupAssoc (setAssoc l k v) p =
      if p = k then (lookupAssoc l p).map (fun _ => v) else lookupAssoc l p := by
  induction l with
  | nil => simp only [setAssoc, lookupAssoc]; split <;> rfl
  | cons kv rest ih =>
    simp only [setAssoc]
    by_cases hk : kv.1 = k
    · by_cases hp : p = k
      · simp [lookupAssoc, hk, hp, ih]
      · simp only [if_pos hk, lookupAssoc, ih, if_neg hp]
        have : ¬ k = p := fun h => hp h.symm
        simp [this, hk, fun h => hp (hk ▸ h : p = k)]
    · by_cases hkp : kv.1 = p
      · have hp : ¬ p = k := fun h => hk (hkp.symm ▸ h : kv.1 = k)
        simp [lookupAssoc, hk, hkp, hp]
      · simp [lookupAssoc, hk, hkp, ih]

/-- A keyed update never changes which keys are present. -/
theorem isSome_lookupAssoc_setAssoc {α : Type} (l : List (String × α)) (k : String) (v : α)
    (p : String) :
    (lookupAssoc (setAssoc l k v) p).isSome = (lookupAssoc l p).isSome := by
  rw [lookupAssoc_setAssoc]
  split
  · cases lookupAssoc l p <;> rfl
  · rfl

/-- Looking a key up after removing every entry with key `n`. -/
theorem lookupAssoc_removeComps (l : List (String × Props)) (n p : String) :
    lookupAssoc (removeComps l n) p = if p = n then none else lookupAssoc l p := by
  induction l with
  | nil => simp only [removeComps, lookupAssoc]; split <;> rfl
  | cons kv rest ih =>
    simp only [removeComps]
    by_cases hk : kv.1 = n
    · rw [if_pos hk, ih]
      by_cases hp : p = n
      · simp [hp]
      · have hkvp : ¬ kv.1 = p := by
          rw [hk]; intro h; exact hp h.symm
        simp [hp, lookupAssoc, hkvp]
    · rw [if_neg hk]
      simp only [lookupAssoc]
      by_cases hkp : kv.1 = p
      · have hp : ¬ p = n := by
          intro h; exact hk (by rw [hkp, h])
        simp [hkp, hp]
      · simp [hkp, ih]

/-- A lookup that succeeds on the left list succeeds identically on the
concatenation. -/
theorem lookupAssoc_append_left {α : Type} (l l2 : List (String × α)) (p : String) (w : α)
    (h : lookupAssoc l p = some w) : lookupAssoc (l ++ l2) p = some w := by
  induction l with
  | nil => simp [lookupAssoc] at h
  | cons kv rest ih =>
    simp only [lookupAssoc, List.cons_append] at h ⊢
    by_cases hk : kv.1 = p
    · simpa [hk] using h
    · simp only [if_neg hk] at h ⊢
      exact ih h

/-- A lookup that fails on the left list falls through to the right list. -/
theorem lookupAssoc_append_right {α : Type} (l l2 : List (String × α)) (p : String)
    (h : lookupAssoc l p = none) : lookupAssoc (l ++ l2) p = lookupAssoc l2 p := by
  induction l with
  | nil => rfl
  | cons kv rest ih =>
    simp only [lookupAssoc, List.cons_append] at h ⊢
    by_cases hk : kv.1 = p
    · simp [hk] at h
    · simp only [if_neg hk] at h ⊢
      exact ih h

/-- Over an association list with distinct keys, membership of a pair
determines the lookup result. -/
theorem lookupAssoc_of_mem_nodup {α : Type} (l : List (String × α))
    (hnodup : (l.map Prod.fst).Nodup) (q : String) (d : α) (hmem : (q, d) ∈ l) :
    lookupAssoc l q = some d := by
  induction l with
  | nil => cases hmem
  | cons kv rest ih =>
    simp only [List.map_cons, List.nodup_cons] at hnodup
    rcases List.mem_cons.mp hmem with h | h
    · subst h; simp [lookupAssoc]
    · have hne : ¬ kv.1 = q := by
        intro hq
        exact hnodup.1 (hq ▸ (List.mem_map.mpr ⟨(q, d), h, rfl⟩))
      simp only [lookupAssoc, if_neg hne]
      exact ih hnodup.2 h

/-- One run of the property-loop body is exactly a keyed write of the value
writesProp selects, or the identity when it selects none. -/
theorem syncProp_eq_writesProp (ov : OverrideComponent) (typeName : String)
    (componentData : ComponentData) (ps : Props) (q : String) :
    syncProp ov typeName componentData ps q =
      match writesProp ov typeName componentData q with
      | some v => setAssoc ps q v
      | none => ps := by
  simp only [syncProp, writesProp]
  split_ifs <;> rfl

/-- The effect of one property-loop run on a single property slot. -/
theorem lookupAssoc_syncProp (ov : OverrideComponent) (typeName : String)
    (componentData : ComponentData) (ps : Props) (q p : String) :
    lookupAssoc (syncProp ov typeName componentData ps q) p =
      match writesProp ov typeName componentData q with
      | some v => if p = q then (lookupAssoc ps p).map (fun _ => v) else lookupAssoc ps p
      | none => lookupAssoc ps p := by
  rw [syncProp_eq_writesProp]
  cases writesProp ov typeName componentData q with
  | some v => simp [lookupAssoc_setAssoc]
  | none => rfl

/-- Full characterization of the property loop over a component instance: a
property listed among the iterated names is set to the master's value exactly
when writesProp selects one and the slot exists; every other slot keeps its
prior value. -/
theorem lookupAssoc_syncProps (ov : OverrideComponent) (typeName : String)
    (componentData : ComponentData) (qs : List String) (ps : Props) (p : String) :
    lookupAssoc (syncProps ov typeName componentData qs ps) p =
      if p ∈ qs then
        match writesProp ov typeName componentData p with
        | some v => (lookupAssoc ps p).map (fun _ => v)
        | none => lookupAssoc ps p
      else lookupAssoc ps p := by
  induction qs generalizing ps with
  | nil => simp [syncProps]
  | cons q rest ih =>
    rw [syncProps, ih, lookupAssoc_syncProp]
    by_cases hpq : p = q
    · subst hpq
      cases hw : writesProp ov typeName componentData p with
      | some v =>
        by_cases hpr : p ∈ rest
        · simp only [hpr, if_true, hw, List.mem_cons, true_or, if_pos]
          cases lookupAssoc ps p <;> simp
        · simp [hpr, hw, List.mem_cons]
      | none => simp [hw, List.mem_cons]
    · have hmem : (p ∈ q :: rest) = (p ∈ rest) := by
        simp [List.mem_cons, hpq]
      cases hw : writesProp ov typeName componentData q with
      | some v => simp [hpq, hmem]
      | none => simp [hmem]

/-- The property-synchronization section never touches the override ledger. -/
theorem propSyncSection_overrideComp (entityData : EntityData) (ct : ComponentType)
    (e : Entity) : (propSyncSection entityData ct e).overrideComp = e.overrideComp := by
  unfold propSyncSection
  cases lookupAssoc entityData ct.name with
  | none => rfl
  | some cd =>
    cases lookupAssoc e.comps ct.name with
    | none => rfl
    | some ps => rfl

/-- One component-type loop run never touches the override ledger. -/
theorem processComponentType_overrideComp (entityData : EntityData) (ct : ComponentType)
    (e : Entity) : (processComponentType entityData ct e).overrideComp = e.overrideComp := by
  unfold processComponentType
  dsimp only
  split_ifs <;>
    simp [propSyncSection_overrideComp, Entity.addComponent, Entity.removeComponent]

/-- The property-synchronization section for type ct leaves every component
with a different type name untouched. -/
theorem lookupAssoc_propSyncSection_ne (entityData : EntityData) (ct : ComponentType)
    (e : Entity) (n : String) (h : ¬ n = ct.name) :
    lookupAssoc (propSyncSection entityData ct e).comps n = lookupAssoc e.comps n := by
  unfold propSyncSection
  cases lookupAssoc entityData ct.name with
  | none => rfl
  | some cd =>
    cases lookupAssoc e.comps ct.name with
    | none => rfl
    | some ps => simp [Entity.setComponent, lookupAssoc_setAssoc, h]

/-- One component-type loop run for type ct leaves every component with a
different type name untouched. -/
theorem lookupAssoc_processComponentType_ne (entityData : EntityData) (ct : ComponentType)
    (e : Entity) (n : String) (h : ¬ n = ct.name) :
    lookupAssoc (processComponentType entityData ct e).comps n = lookupAssoc e.comps n := by
  have hadd : lookupAssoc (e.comps ++ [(ct.name, ct.props)]) n = lookupAssoc e.comps n := by
    cases hl : lookupAssoc e.comps n with
    | some w => exact lookupAssoc_append_left _ _ _ _ hl
    | none =>
      rw [lookupAssoc_append_right _ _ _ hl]
      simp only [lookupAssoc]
      rw [if_neg fun hh => h hh.symm]
  unfold processComponentType
  dsimp only
  split_ifs <;>
    first
      | rfl
      | (rw [lookupAssoc_propSyncSection_ne _ _ _ _ h]; done)
      | (rw [lookupAssoc_propSyncSection_ne _ _ _ _ h]; exact hadd)
      | (rw [lookupAssoc_propSyncSection_ne _ _ _ _ h]
         show lookupAssoc (removeComps e.comps ct.name) n = lookupAssoc e.comps n
         rw [lookupAssoc_removeComps, if_neg h])

/-- The full component-type loop never touches the override ledger. -/
theorem updateEntity_overrideComp (entityData : EntityData) (cts : List ComponentType)
    (e : Entity) : (updateEntity entityData cts e).overrideComp = e.overrideComp := by
  induction cts generalizing e with
  | nil => rfl
  | cons ct rest ih =>
    rw [updateEntity, ih, processComponentType_overrideComp]

/-- The full component-type loop leaves a component untouched when no iterated
descriptor carries its type name. -/
theorem lookupAssoc_updateEntity_ne (entityData : EntityData) (cts : List ComponentType)
    (e : Entity) (n : String) (hall : ∀ ct ∈ cts, ¬ n = ct.name) :
    lookupAssoc (updateEntity entityData cts e).comps n = lookupAssoc e.comps n := by
  induction cts generalizing e with
  | nil => rfl
  | cons ct rest ih =>
    rw [updateEntity, ih _ fun c hc => hall c (List.mem_cons_of_mem _ hc),
      lookupAssoc_processComponentType_ne _ _ _ _ (hall ct (List.mem_cons_self _ _))]

/-- The component-type loop splits over list concatenation. -/
theorem updateEntity_append (entityData : EntityData) (s t : List ComponentType)
    (e : Entity) :
    updateEntity entityData (s ++ t) e = updateEntity entityData t (updateEntity entityData s e) := by
  induction s generalizing e with
  | nil => rfl
  | cons ct rest ih => rw [List.cons_append, updateEntity, updateEntity, ih]

/-- Splitting a duplicate-free registry around one member: no descriptor on
either side shares the member's type name. -/
theorem name_ne_of_nodup_split (s t : List ComponentType) (ctT : ComponentType)
    (hnodup : (List.map ComponentType.name (s ++ ctT :: t)).Nodup) :
    (∀ ct ∈ s, ¬ ctT.name = ct.name) ∧ ∀ ct ∈ t, ¬ ctT.name = ct.name := by
  rw [List.map_append, List.nodup_append] at hnodup
  obtain ⟨_, h2, hdisj⟩ := hnodup
  rw [List.map_cons, List.nodup_cons] at h2
  constructor
  · intro ct hct heq
    exact hdisj (List.mem_map.mpr ⟨ct, hct, heq.symm⟩) (List.mem_cons_self _ _)
  · intro ct hct heq
    exact h2.1 (heq ▸ List.mem_map.mpr ⟨ct, hct, rfl⟩)

/-- One loop run on a component type present both in the master document and
on the instance (and not named "Scene ID"): neither the add nor the remove
rule fires, and the run is exactly the property-synchronization write. -/
theorem processComponentType_present (entityData : EntityData) (ct : ComponentType)
    (e : Entity) (cd : ComponentData) (ps : Props)
    (hsc : ¬ ct.name = "Scene ID")
    (hmaster : lookupAssoc entityData ct.name = some cd)
    (hinst : lookupAssoc e.comps ct.name = some ps) :
    processComponentType entityData ct e =
      e.setComponent ct.name
        (syncProps e.overrideComp ct.name cd (ct.props.map Prod.fst) ps) := by
  have hB : e.hasComponent ct.name = true := by
    unfold Entity.hasComponent; rw [hinst]; rfl
  unfold processComponentType
  dsimp only
  rw [if_neg hsc]
  simp only [hmaster, Option.isSome_some, hB, Bool.not_true, Bool.and_false, Bool.false_and,
    Bool.false_eq_true, if_false, propSyncSection, hinst]

/-- One loop run on a component type absent from the master document but
present on the instance (and none of the protected names): the remove rule
detaches it unless the ledger records it as locally added, in which case the
run changes nothing. -/
theorem processComponentType_remove (entityData : EntityData) (ct : ComponentType)
    (e : Entity) (ps : Props)
    (hsc : ¬ ct.name = "Scene ID") (huu : ¬ ct.name = "UUIDComponent")
    (hoc : ¬ ct.name = "OverrideComponent")
    (hmaster : lookupAssoc entityData ct.name = none)
    (hinst : lookupAssoc e.comps ct.name = some ps) :
    processComponentType entityData ct e =
      if localAdded e.overrideComp.components ct.name then e
      else e.removeComponent ct.name := by
  have hB : e.hasComponent ct.name = true := by
    unfold Entity.hasComponent; rw [hinst]; rfl
  have hA : (lookupAssoc entityData ct.name).isSome = false := by rw [hmaster]; rfl
  unfold processComponentType
  dsimp only
  rw [if_neg hsc, hA, hB, Bool.false_and, Bool.false_and, if_neg Bool.false_ne_true,
    Bool.not_false, Bool.true_and, if_pos rfl, if_neg fun hh => hh.elim huu hoc]
  cases hl : localAdded e.overrideComp.components ct.name with
  | false =>
    rw [Bool.not_false, if_pos rfl]
    simp [propSyncSection, hmaster]
  | true =>
    rw [Bool.not_true, if_neg Bool.false_ne_true]
    simp [propSyncSection, hmaster]

/-- One loop run on a component type present in the master document, absent
from the instance, not recorded as locally added, and none of the protected
names: the add rule attaches a default-constructed component which the
property-synchronization section then fills. -/
theorem processComponentType_add (entityData : EntityData) (ct : ComponentType)
    (e : Entity) (cd : ComponentData)
    (hsc : ¬ ct.name = "Scene ID") (hch : ¬ ct.name = "Child")
    (hpa : ¬ ct.name = "Parent")
    (hmaster : lookupAssoc entityData ct.name = some cd)
    (hinst : lookupAssoc e.comps ct.name = none)
    (hlocal : localAdded e.overrideComp.components ct.name = false) :
    processComponentType entityData ct e =
      (e.addComponent ct).setComponent ct.name
        (syncProps e.overrideComp ct.name cd (ct.props.map Prod.fst) ct.props) := by
  have hB : e.hasComponent ct.name = false := by
    unfold Entity.hasComponent; rw [hinst]; rfl
  have hlook : lookupAssoc (e.addComponent ct).comps ct.name = some ct.props := by
    show lookupAssoc (e.comps ++ [(ct.name, ct.props)]) ct.name = some ct.props
    rw [lookupAssoc_append_right _ _ _ hinst]
    simp [lookupAssoc]
  unfold processComponentType
  dsimp only
  rw [if_neg hsc]
  simp only [hmaster, Option.isSome_some, hB, Bool.not_false, Bool.and_true, Bool.true_and,
    if_true, hlocal]
  rw [if_neg fun hh => hh.elim hch hpa]
  have hov : (e.addComponent ct).overrideComp = e.overrideComp := rfl
  simp only [propSyncSection, hmaster, hlook, hov]

/-- Full-loop version of the both-present case: with a duplicate-free registry
containing the descriptor, the component ends up holding exactly the result of
the property loop run on its prior value (or its prior value unchanged for the
excluded type name "Scene ID"). -/
theorem lookupAssoc_updateEntity_present (entityData : EntityData)
    (cts : List ComponentType) (ctT : ComponentType) (cd : ComponentData) (e : Entity)
    (ps : Props) (hnodup : (cts.map ComponentType.name).Nodup) (hmem : ctT ∈ cts)
    (hmaster : lookupAssoc entityData ctT.name = some cd)
    (hinst : lookupAssoc e.comps ctT.name = some ps) :
    lookupAssoc (updateEntity entityData cts e).comps ctT.name =
      some (if ctT.name = "Scene ID" then ps
        else syncProps e.overrideComp ctT.name cd (ctT.props.map Prod.fst) ps) := by
  obtain ⟨s, t, rfl⟩ := List.append_of_mem hmem
  obtain ⟨hs, ht⟩ := name_ne_of_nodup_split s t ctT hnodup
  rw [updateEntity_append, updateEntity]
  have he1 : lookupAssoc (updateEntity entityData s e).comps ctT.name = some ps := by
    rw [lookupAssoc_updateEntity_ne _ _ _ _ hs]; exact hinst
  have hov : (updateEntity entityData s e).overrideComp = e.overrideComp :=
    updateEntity_overrideComp _ _ _
  rw [lookupAssoc_updateEntity_ne _ _ _ _ ht]
  by_cases hsc : ctT.name = "Scene ID"
  · rw [if_pos hsc]
    have hid : processComponentType entityData ctT (updateEntity entityData s e) =
        updateEntity entityData s e := by
      unfold processComponentType; dsimp only; rw [if_pos hsc]
    rw [hid]; exact he1
  · rw [if_neg hsc, processComponentType_present entityData ctT _ cd ps hsc hmaster he1]
    simp only [Entity.setComponent]
    rw [lookupAssoc_setAssoc, if_pos rfl, he1, hov]
    rfl

/-- Full-loop version of the remove rule: a component absent from the master
is detached exactly when it is not recorded as locally added, and otherwise
keeps its prior value. -/
theorem lookupAssoc_updateEntity_remove (entityData : EntityData)
    (cts : List ComponentType) (ctT : ComponentType) (e : Entity) (ps : Props)
    (hnodup : (cts.map ComponentType.name).Nodup) (hmem : ctT ∈ cts)
    (hsc : ¬ ctT.name = "Scene ID") (huu : ¬ ctT.name = "UUIDComponent")
    (hoc : ¬ ctT.name = "OverrideComponent")
    (hmaster : lookupAssoc entityData ctT.name = none)
    (hinst : lookupAssoc e.comps ctT.name = some ps) :
    lookupAssoc (updateEntity entityData cts e).comps ctT.name =
      if localAdded e.overrideComp.components ctT.name then some ps else none := by
  obtain ⟨s, t, rfl⟩ := List.append_of_mem hmem
  obtain ⟨hs, ht⟩ := name_ne_of_nodup_split s t ctT hnodup
  rw [updateEntity_append, updateEntity]
  have he1 : lookupAssoc (updateEntity entityData s e).comps ctT.name = some ps := by
    rw [lookupAssoc_updateEntity_ne _ _ _ _ hs]; exact hinst
  have hov : (updateEntity entityData s e).overrideComp = e.overrideComp :=
    updateEntity_overrideComp _ _ _
  rw [lookupAssoc_updateEntity_ne _ _ _ _ ht,
    processComponentType_remove entityData ctT _ ps hsc huu hoc hmaster he1, hov]
  cases hl : localAdded e.overrideComp.components ctT.name with
  | true => simpa using he1
  | false =>
    simp only [Bool.false_eq_true, if_false]
    show lookupAssoc (removeComps (updateEntity entityData s e).comps ctT.name) ctT.name = none
    rw [lookupAssoc_removeComps, if_pos rfl]

/-- Full-loop version of the add rule: a component present in the master,
absent from the instance and not locally added ends up attached, holding the
property loop's result on the default-constructed component. -/
theorem lookupAssoc_updateEntity_add (entityData : EntityData)
    (cts : List ComponentType) (ctT : ComponentType) (cd : ComponentData) (e : Entity)
    (hnodup : (cts.map ComponentType.name).Nodup) (hmem : ctT ∈ cts)
    (hsc : ¬ ctT.name = "Scene ID") (hch : ¬ ctT.name = "Child")
    (hpa : ¬ ctT.name = "Parent")
    (hmaster : lookupAssoc entityData ctT.name = some cd)
    (hinst : lookupAssoc e.comps ctT.name = none)
    (hlocal : localAdded e.overrideComp.components ctT.name = false) :
    lookupAssoc (updateEntity entityData cts e).comps ctT.name =
      some (syncProps e.overrideComp ctT.name cd (ctT.props.map Prod.fst) ctT.props) := by
  obtain ⟨s, t, rfl⟩ := List.append_of_mem hmem
  obtain ⟨hs, ht⟩ := name_ne_of_nodup_split s t ctT hnodup
  rw [updateEntity_append, updateEntity]
  have he1 : lookupAssoc (updateEntity entityData s e).comps ctT.name = none := by
    rw [lookupAssoc_updateEntity_ne _ _ _ _ hs]; exact hinst
  have hov : (updateEntity entityData s e).overrideComp = e.overrideComp :=
    updateEntity_overrideComp _ _ _
  have hlocal1 :
      localAdded (updateEntity entityData s e).overrideComp.components ctT.name = false := by
    rw [hov]; exact hlocal
  rw [lookupAssoc_updateEntity_ne _ _ _ _ ht,
    processComponentType_add entityData ctT _ cd hsc hch hpa hmaster he1 hlocal1]
  simp only [Entity.setComponent, Entity.addComponent]
  rw [lookupAssoc_setAssoc, if_pos rfl, lookupAssoc_append_right _ _ _ he1]
  simp only [lookupAssoc, if_pos rfl, hov]
  rfl

/-- Projecting the synchronization pass at a matching instance: position i of
the result is the reconciliation of position i of the input. -/
theorem updateAllPrefabInstance_getElem_match (handle : Nat) (entityData : EntityData)
    (cts : List ComponentType) (es : List Entity) (i : Nat) (e : Entity)
    (he : es[i]? = some e)
    (hmatch : e.overrideComp.masterPrefabHandle = handle) :
    (updateAllPrefabInstance handle (PrefabFile.wellFormed (RDoc.withEntity entityData))
        cts es).1[i]? = some (updateEntity entityData cts e) := by
  simp [updateAllPrefabInstance, loadPrefab, RDoc.isNull, List.getElem?_map, he, syncEntity,
    hmatch]

end TeaEditor

/-- C2: a malformed master prefab document (a parse failure) makes
updateAllPrefabInstance abort the whole pass before touching any instance:
the entity list is returned exactly as given, and the parse error is the
reported log. -/
theorem C2_malformed_master_aborts (handle : Nat) (cts : List TeaEditor.ComponentType)
    (es : List TeaEditor.Entity) :
    TeaEditor.updateAllPrefabInstance handle TeaEditor.PrefabFile.malformed cts es =
      (es, ["Failed to parse prefab file"]) := rfl

/-- C3: executeCommand calls the command's execute exactly once (the call
trace is the single execute event), pushes the command onto the undo stack
and leaves the redo stack empty; consequently after Submit(a), Undo(),
Submit(b) the redo stack is empty and the next Undo() calls undo on the
command submitted as b, not on a. -/
theorem C3_executeCommand_contract {C W : Type} (sem : Cmd.Semantics C W)
    (m : Cmd.CommandManager C) (w : W) (cmd : C)
    (m0 : Cmd.CommandManager C) (w0 : W) (a b : C) :
    Cmd.executeCommand sem m w cmd =
      (⟨(sem.onExecute cmd w).1 :: m.undoStack, []⟩, (sem.onExecute cmd w).2,
        [Cmd.CmdEvent.callExecute cmd]) ∧
    (let s1 := Cmd.executeCommand sem m0 w0 a
     let s2 := Cmd.managerUndo sem s1.1 s1.2.1
     let s3 := Cmd.executeCommand sem s2.1 s2.2.1 b
     s3.1.redoStack = [] ∧
     (Cmd.managerUndo sem s3.1 s3.2.1).2.2 =
       [Cmd.CmdEvent.callUndo (sem.onExecute b s2.2.1).1]) :=
  ⟨rfl, rfl, rfl⟩

/-- C8: CommandManager's undo is a no-op on an empty undo stack (no command
call happens and nothing changes) and otherwise pops the top command, calls
its undo and pushes it onto the redo stack; symmetrically for redo on the
redo stack; the empty cases raise no error and change no state. -/
theorem C8_undo_redo_stack_discipline {C W : Type} (sem : Cmd.Semantics C W) (w : W)
    (u r : List C) (c : C) :
    Cmd.managerUndo sem ⟨[], r⟩ w = (⟨[], r⟩, w, []) ∧
    Cmd.managerRedo sem ⟨u, []⟩ w = (⟨u, []⟩, w, []) ∧
    Cmd.managerUndo sem ⟨c :: u, r⟩ w =
      (⟨u, (sem.onUndo c w).1 :: r⟩, (sem.onUndo c w).2, [Cmd.CmdEvent.callUndo c]) ∧
    Cmd.managerRedo sem ⟨u, c :: r⟩ w =
      (⟨(sem.onRedo c w).1 :: u, r⟩, (sem.onRedo c w).2, [Cmd.CmdEvent.callRedo c]) :=
  ⟨rfl, rfl, rfl, rfl⟩

/-- C7: after Submit of a CreateEntityCommand followed by Undo() and Redo(),
the recreated entity carries the same UUID the original execute minted
(w.nextUUID), and no fresh identifier was minted by the redo: the fresh-UUID
counter still shows exactly the one mint done by execute. -/
theorem C7_create_undo_redo_same_uuid (m : Cmd.CommandManager Cmd.CreateEntityCommand)
    (w : Cmd.SceneState) (c0 : Cmd.CreateEntityCommand) :
    (let s1 := Cmd.executeCommand Cmd.createEntitySem m w c0
     let s2 := Cmd.managerUndo Cmd.createEntitySem s1.1 s1.2.1
     let s3 := Cmd.managerRedo Cmd.createEntitySem s2.1 s2.2.1
     s3.2.1.live.head? = some w.nextUUID ∧ s3.2.1.nextUUID = w.nextUUID + 1) :=
  ⟨rfl, rfl⟩

/-- C10 counterexample: the claim "loadPrefab returns a null document if and
only if the file cannot be opened" is false at the concrete input of a file
that opens but fails to parse: the document produced by the failed parse is
also null. -/
theorem C10_counterexample :
    ¬ (((TeaEditor.loadPrefab TeaEditor.PrefabFile.malformed).1 = TeaEditor.RDoc.nullDoc) ↔
        TeaEditor.PrefabFile.malformed = TeaEditor.PrefabFile.missing) := by
  decide

/-- C10 amended: loadPrefab returns a null document when the file cannot be
opened, but also when the content fails to parse — the parse error is logged
and the document produced by the failed parse (left null by rapidjson) is
returned rather than any failure signal; a successfully parsed document is
returned as parsed with no log. -/
theorem C10_loadPrefab_characterization (d : TeaEditor.RDoc) :
    TeaEditor.loadPrefab TeaEditor.PrefabFile.missing =
      (TeaEditor.RDoc.nullDoc, ["Failed to open prefab file"]) ∧
    TeaEditor.loadPrefab TeaEditor.PrefabFile.malformed =
      (TeaEditor.RDoc.nullDoc, ["Failed to parse prefab file"]) ∧
    TeaEditor.loadPrefab (TeaEditor.PrefabFile.wellFormed d) = (d, []) :=
  ⟨rfl, rfl, rfl⟩

/-- C9: an entity whose override ledger names a master handle different from
the synchronized handle is left entirely unchanged by
updateAllPrefabInstance, whatever the master file holds. -/
theorem C9_nonmatching_instances_untouched (handle : Nat) (file : TeaEditor.PrefabFile)
    (cts : List TeaEditor.ComponentType) (es : List TeaEditor.Entity) (i : Nat)
    (e : TeaEditor.Entity) (he : es[i]? = some e)
    (hne : e.overrideComp.masterPrefabHandle ≠ handle) :
    (TeaEditor.updateAllPrefabInstance handle file cts es).1[i]? = some e := by
  unfold TeaEditor.updateAllPrefabInstance
  by_cases hnull : (TeaEditor.loadPrefab file).1.isNull = true
  · simp [hnull, he]
  · simp [hnull, List.getElem?_map, he, TeaEditor.syncEntity, hne]

/-- C9 witness: a concrete single-entity registry whose handle (3) differs
from the synchronized handle (7) is returned unchanged. -/
theorem C9_witness :
    (([⟨⟨3, [], []⟩, []⟩] : List TeaEditor.Entity)[0]? =
      some (⟨⟨3, [], []⟩, []⟩ : TeaEditor.Entity)) ∧
    ((⟨⟨3, [], []⟩, []⟩ : TeaEditor.Entity).overrideComp.masterPrefabHandle ≠ 7) ∧
    (TeaEditor.updateAllPrefabInstance 7
        (TeaEditor.PrefabFile.wellFormed (TeaEditor.RDoc.withEntity [])) []
        [⟨⟨3, [], []⟩, []⟩]).1[0]? = some (⟨⟨3, [], []⟩, []⟩ : TeaEditor.Entity) :=
  ⟨by decide, by decide,
    C9_nonmatching_instances_untouched 7
      (TeaEditor.PrefabFile.wellFormed (TeaEditor.RDoc.withEntity [])) []
      [⟨⟨3, [], []⟩, []⟩] 0 ⟨⟨3, [], []⟩, []⟩ (by decide) (by decide)⟩

/-- C4 counterexample: the claim "for every command c and every state S,
undo(execute(c, S)) = S" is false at a concrete TransformEntityCommand whose
stored old transform differs from the state's actual transform: undo restores
the stored old values, not S. -/
theorem C4_counterexample :
    Cmd.TransformEntityCommand.undo
        ⟨⟨0, 0, 0⟩, ⟨0, 0, 0⟩, ⟨0, 0, 0⟩, ⟨1, 1, 1⟩, ⟨1, 1, 1⟩, ⟨1, 1, 1⟩⟩
        (Cmd.TransformEntityCommand.execute
          ⟨⟨0, 0, 0⟩, ⟨0, 0, 0⟩, ⟨0, 0, 0⟩, ⟨1, 1, 1⟩, ⟨1, 1, 1⟩, ⟨1, 1, 1⟩⟩
          (some ⟨⟨2, 2, 2⟩, ⟨2, 2, 2⟩, ⟨2, 2, 2⟩⟩)) ≠
      some ⟨⟨2, 2, 2⟩, ⟨2, 2, 2⟩, ⟨2, 2, 2⟩⟩ := by
  decide

/-- C4 amended: undo after execute restores S provided the command's stored
old state matches S — for TransformEntityCommand, S either lacks a transform
or its transform equals the stored old triple (the constructor's capture
contract); for ChangeMaterialInstanceCommand, whenever the stored index is in
range the state's array equals the captured array with the old value at that
index.  Redo after that undo restores the state execute produced,
unconditionally for both commands. -/
theorem C4_amended_inverse_law (ct : Cmd.TransformEntityCommand) (st : Option Cmd.Transform)
    (cm : Cmd.ChangeMaterialInstanceCommand) (arr : List Nat) :
    ((st = none ∨ st = some ⟨ct.m_oldPosition, ct.m_oldRotation, ct.m_oldScale⟩) →
      ct.undo (ct.execute st) = st) ∧
    ct.redo (ct.undo (ct.execute st)) = ct.execute st ∧
    ((cm.m_index < cm.m_propValue.length →
        arr = cm.m_propValue.set cm.m_index cm.m_oldValue) →
      cm.undo (cm.execute arr) = arr) ∧
    cm.redo (cm.undo (cm.execute arr)) = cm.execute arr := by
  refine ⟨?_, ?_, ?_, ?_⟩
  · intro h1
    rcases h1 with h | h <;> subst h <;> rfl
  · cases st <;> rfl
  · intro h2
    by_cases h : cm.m_index < cm.m_propValue.length
    · simp [Cmd.ChangeMaterialInstanceCommand.undo, Cmd.ChangeMaterialInstanceCommand.execute,
        Cmd.ChangeMaterialInstanceCommand.applyValue, h, List.set_set, h2 h]
    · simp [Cmd.ChangeMaterialInstanceCommand.undo, Cmd.ChangeMaterialInstanceCommand.execute,
        Cmd.ChangeMaterialInstanceCommand.applyValue, h]
  · by_cases h : cm.m_index < cm.m_propValue.length <;>
      simp [Cmd.ChangeMaterialInstanceCommand.redo, Cmd.ChangeMaterialInstanceCommand.undo,
        Cmd.ChangeMaterialInstanceCommand.execute,
        Cmd.ChangeMaterialInstanceCommand.applyValue, h, List.set_set]

/-- C4 amended witness: on a concrete transform command capturing old values
(1,2,3)/(0,0,0)/(1,1,1), a matching state, and a concrete material command
over the array [5,6] whose old value 5 sits at index 0, the capture-contract
antecedents hold concretely, the two undo laws follow by discharging them,
and the two redo laws hold outright. -/
theorem C4_amended_witness :
    ((some ⟨⟨1, 2, 3⟩, ⟨0, 0, 0⟩, ⟨1, 1, 1⟩⟩ : Option Cmd.Transform) = none ∨
      (some ⟨⟨1, 2, 3⟩, ⟨0, 0, 0⟩, ⟨1, 1, 1⟩⟩ : Option Cmd.Transform) =
        some ⟨⟨1, 2, 3⟩, ⟨0, 0, 0⟩, ⟨1, 1, 1⟩⟩) ∧
    ((0 : Nat) < ([5, 6] : List Nat).length → ([5, 6] : List Nat) = [5, 6].set 0 5) ∧
    (Cmd.TransformEntityCommand.undo
        ⟨⟨1, 2, 3⟩, ⟨0, 0, 0⟩, ⟨1, 1, 1⟩, ⟨9, 9, 9⟩, ⟨0, 0, 0⟩, ⟨2, 2, 2⟩⟩
        (Cmd.TransformEntityCommand.execute
          ⟨⟨1, 2, 3⟩, ⟨0, 0, 0⟩, ⟨1, 1, 1⟩, ⟨9, 9, 9⟩, ⟨0, 0, 0⟩, ⟨2, 2, 2⟩⟩
          (some ⟨⟨1, 2, 3⟩, ⟨0, 0, 0⟩, ⟨1, 1, 1⟩⟩)) =
        some ⟨⟨1, 2, 3⟩, ⟨0, 0, 0⟩, ⟨1, 1, 1⟩⟩ ∧
      Cmd.TransformEntityCommand.redo
          ⟨⟨1, 2, 3⟩, ⟨0, 0, 0⟩, ⟨1, 1, 1⟩, ⟨9, 9, 9⟩, ⟨0, 0, 0⟩, ⟨2, 2, 2⟩⟩
          (Cmd.TransformEntityCommand.undo
            ⟨⟨1, 2, 3⟩, ⟨0, 0, 0⟩, ⟨1, 1, 1⟩, ⟨9, 9, 9⟩, ⟨0, 0, 0⟩, ⟨2, 2, 2⟩⟩
            (Cmd.TransformEntityCommand.execute
              ⟨⟨1, 2, 3⟩, ⟨0, 0, 0⟩, ⟨1, 1, 1⟩, ⟨9, 9, 9⟩, ⟨0, 0, 0⟩, ⟨2, 2, 2⟩⟩
              (some ⟨⟨1, 2, 3⟩, ⟨0, 0, 0⟩, ⟨1, 1, 1⟩⟩))) =
        Cmd.TransformEntityCommand.execute
          ⟨⟨1, 2, 3⟩, ⟨0, 0, 0⟩, ⟨1, 1, 1⟩, ⟨9, 9, 9⟩, ⟨0, 0, 0⟩, ⟨2, 2, 2⟩⟩
          (some ⟨⟨1, 2, 3⟩, ⟨0, 0, 0⟩, ⟨1, 1, 1⟩⟩) ∧
      Cmd.ChangeMaterialInstanceCommand.undo ⟨[5, 6], 0, 5, 9⟩
          (Cmd.ChangeMaterialInstanceCommand.execute ⟨[5, 6], 0, 5, 9⟩ [5, 6]) = [5, 6] ∧
      Cmd.ChangeMaterialInstanceCommand.redo ⟨[5, 6], 0, 5, 9⟩
          (Cmd.ChangeMaterialInstanceCommand.undo ⟨[5, 6], 0, 5, 9⟩
            (Cmd.ChangeMaterialInstanceCommand.execute ⟨[5, 6], 0, 5, 9⟩ [5, 6])) =
        Cmd.ChangeMaterialInstanceCommand.execute ⟨[5, 6], 0, 5, 9⟩ [5, 6]) :=
  ⟨Or.inr rfl, fun _ => by decide,
    (C4_amended_inverse_law
      ⟨⟨1, 2, 3⟩, ⟨0, 0, 0⟩, ⟨1, 1, 1⟩, ⟨9, 9, 9⟩, ⟨0, 0, 0⟩, ⟨2, 2, 2⟩⟩
      (some ⟨⟨1, 2, 3⟩, ⟨0, 0, 0⟩, ⟨1, 1, 1⟩⟩)
      ⟨[5, 6], 0, 5, 9⟩ [5, 6]).1 (Or.inr rfl),
    (C4_amended_inverse_law
      ⟨⟨1, 2, 3⟩, ⟨0, 0, 0⟩, ⟨1, 1, 1⟩, ⟨9, 9, 9⟩, ⟨0, 0, 0⟩, ⟨2, 2, 2⟩⟩
      (some ⟨⟨1, 2, 3⟩, ⟨0, 0, 0⟩, ⟨1, 1, 1⟩⟩)
      ⟨[5, 6], 0, 5, 9⟩ [5, 6]).2.1,
    (C4_amended_inverse_law
      ⟨⟨1, 2, 3⟩, ⟨0, 0, 0⟩, ⟨1, 1, 1⟩, ⟨9, 9, 9⟩, ⟨0, 0, 0⟩, ⟨2, 2, 2⟩⟩
      (some ⟨⟨1, 2, 3⟩, ⟨0, 0, 0⟩, ⟨1, 1, 1⟩⟩)
      ⟨[5, 6], 0, 5, 9⟩ [5, 6]).2.2.1 (fun _ => by decide),
    (C4_amended_inverse_law
      ⟨⟨1, 2, 3⟩, ⟨0, 0, 0⟩, ⟨1, 1, 1⟩, ⟨9, 9, 9⟩, ⟨0, 0, 0⟩, ⟨2, 2, 2⟩⟩
      (some ⟨⟨1, 2, 3⟩, ⟨0, 0, 0⟩, ⟨1, 1, 1⟩⟩)
      ⟨[5, 6], 0, 5, 9⟩ [5, 6]).2.2.2⟩

/-- C1 counterexample: the claim "if the path is not in the ledger and the
master defines a value for p, synchronization writes the master's value" is
false at a concrete registered property named "Parent": with an empty ledger
and the master defining Transform/Parent = 1, synchronization leaves the
instance's value 0 in place because the property loop skips the protected
property name "Parent". -/
theorem C1_counterexample :
    TeaEditor.isOverridden
        (⟨5, [], []⟩ : TeaEditor.OverrideComponent).properties "Transform/Parent" = false ∧
    TeaEditor.lookupAssoc [("Transform", [("Parent", TeaEditor.Val.vint 1)])] "Transform" =
      some [("Parent", TeaEditor.Val.vint 1)] ∧
    ((TeaEditor.updateAllPrefabInstance 5
        (TeaEditor.PrefabFile.wellFormed (TeaEditor.RDoc.withEntity
          [("Transform", [("Parent", TeaEditor.Val.vint 1)])]))
        [⟨"Transform", [("Parent", TeaEditor.Val.vint 0)]⟩]
        [⟨⟨5, [], []⟩, [("Transform", [("Parent", TeaEditor.Val.vint 0)])]⟩]).1[0]?.bind
      fun e' => (TeaEditor.lookupAssoc e'.comps "Transform").bind
        fun ps' => TeaEditor.lookupAssoc ps' "Parent") = some (TeaEditor.Val.vint 0) ∧
    some (TeaEditor.Val.vint 0) ≠ some (TeaEditor.Val.vint 1) := by
  refine ⟨rfl, rfl, ?_, by decide⟩
  rfl

/-- C1 amended: for a matching instance and a registered component type
present both in the master document and on the instance, a property whose
path is in the override ledger is never mutated by synchronization regardless
of master content; and — excluding the component type named "Scene ID" and
the protected property names "Scene ID" and "Parent" — a property whose path
is not in the ledger and for which the master defines a value is overwritten
with the master's value. -/
theorem C1_amended_override_protection (handle : Nat) (ed : TeaEditor.EntityData)
    (cts : List TeaEditor.ComponentType) (es : List TeaEditor.Entity) (i : Nat)
    (e : TeaEditor.Entity) (ctT : TeaEditor.ComponentType) (cd : TeaEditor.ComponentData)
    (ps : TeaEditor.Props) (p : String)
    (he : es[i]? = some e)
    (hmatch : e.overrideComp.masterPrefabHandle = handle)
    (hnodup : (cts.map TeaEditor.ComponentType.name).Nodup)
    (hmem : ctT ∈ cts)
    (hmaster : TeaEditor.lookupAssoc ed ctT.name = some cd)
    (hinst : TeaEditor.lookupAssoc e.comps ctT.name = some ps)
    (hpmem : p ∈ ctT.props.map Prod.fst)
    (hslot : (TeaEditor.lookupAssoc ps p).isSome = true) :
    ∃ ps',
      (TeaEditor.updateAllPrefabInstance handle
          (TeaEditor.PrefabFile.wellFormed (TeaEditor.RDoc.withEntity ed)) cts es).1[i]? =
        some (TeaEditor.updateEntity ed cts e) ∧
      TeaEditor.lookupAssoc (TeaEditor.updateEntity ed cts e).comps ctT.name = some ps' ∧
      (TeaEditor.isOverridden e.overrideComp.properties (ctT.name ++ "/" ++ p) = true →
        TeaEditor.lookupAssoc ps' p = TeaEditor.lookupAssoc ps p) ∧
      (¬ ctT.name = "Scene ID" → ¬ p = "Scene ID" → ¬ p = "Parent" →
        TeaEditor.isOverridden e.overrideComp.properties (ctT.name ++ "/" ++ p) = false →
        ∀ v, TeaEditor.lookupAssoc cd p = some v → TeaEditor.lookupAssoc ps' p = some v) := by
  refine ⟨if ctT.name = "Scene ID" then ps
      else TeaEditor.syncProps e.overrideComp ctT.name cd (ctT.props.map Prod.fst) ps,
    TeaEditor.updateAllPrefabInstance_getElem_match handle ed cts es i e he hmatch,
    TeaEditor.lookupAssoc_updateEntity_present ed cts ctT cd e ps hnodup hmem hmaster hinst,
    ?_, ?_⟩
  · intro hov
    by_cases hsc : ctT.name = "Scene ID"
    · rw [if_pos hsc]
    · rw [if_neg hsc]
      have hw : TeaEditor.writesProp e.overrideComp ctT.name cd p = none := by
        unfold TeaEditor.writesProp
        by_cases hq1 : p = "Scene ID"
        · rw [if_pos hq1]
        · rw [if_neg hq1]
          by_cases hq2 : p = "Parent"
          · rw [if_pos hq2]
          · rw [if_neg hq2, if_pos hov]
      rw [TeaEditor.lookupAssoc_syncProps, hw]
      split <;> rfl
  · intro hsc hp1 hp2 hovf v hv
    rw [if_neg hsc]
    have hw : TeaEditor.writesProp e.overrideComp ctT.name cd p = some v := by
      unfold TeaEditor.writesProp
      rw [if_neg hp1, if_neg hp2, if_neg (by simp [hovf]), hv]
    rw [TeaEditor.lookupAssoc_syncProps, hw, if_pos hpmem]
    cases hps : TeaEditor.lookupAssoc ps p with
    | none => rw [hps] at hslot; simp at hslot
    | some w => rfl

/-- C1 amended witness: on the sample instance, the overridden path
Transform/locked keeps its local value 7 while the non-overridden property
position is overwritten with the master's value 3. -/
theorem C1_amended_witness :
    (([TeaEditor.sampleEntity] : List TeaEditor.Entity)[0]? = some TeaEditor.sampleEntity) ∧
    (TeaEditor.sampleEntity.overrideComp.masterPrefabHandle = 5) ∧
    ((TeaEditor.sampleCts.map TeaEditor.ComponentType.name).Nodup) ∧
    ((⟨"Transform", [("position", TeaEditor.Val.vint 0), ("locked", TeaEditor.Val.vint 7)]⟩ :
        TeaEditor.ComponentType) ∈ TeaEditor.sampleCts) ∧
    (TeaEditor.lookupAssoc TeaEditor.sampleEd "Transform" =
      some [("position", TeaEditor.Val.vint 3), ("locked", TeaEditor.Val.vint 9)]) ∧
    (TeaEditor.lookupAssoc TeaEditor.sampleEntity.comps "Transform" =
      some [("position", TeaEditor.Val.vint 0), ("locked", TeaEditor.Val.vint 7)]) ∧
    ("position" ∈
      (⟨"Transform", [("position", TeaEditor.Val.vint 0), ("locked", TeaEditor.Val.vint 7)]⟩ :
        TeaEditor.ComponentType).props.map Prod.fst) ∧
    ((TeaEditor.lookupAssoc
        [("position", TeaEditor.Val.vint 0), ("locked", TeaEditor.Val.vint 7)]
        "position").isSome = true) ∧
    (∃ ps',
      (TeaEditor.updateAllPrefabInstance 5
          (TeaEditor.PrefabFile.wellFormed (TeaEditor.RDoc.withEntity TeaEditor.sampleEd))
          TeaEditor.sampleCts [TeaEditor.sampleEntity]).1[0]? =
        some (TeaEditor.updateEntity TeaEditor.sampleEd TeaEditor.sampleCts
          TeaEditor.sampleEntity) ∧
      TeaEditor.lookupAssoc
          (TeaEditor.updateEntity TeaEditor.sampleEd TeaEditor.sampleCts
            TeaEditor.sampleEntity).comps "Transform" = some ps' ∧
      (TeaEditor.isOverridden TeaEditor.sampleEntity.overrideComp.properties
          ("Transform" ++ "/" ++ "position") = true →
        TeaEditor.lookupAssoc ps' "position" =
          TeaEditor.lookupAssoc
            [("position", TeaEditor.Val.vint 0), ("locked", TeaEditor.Val.vint 7)] "position") ∧
      (¬ "Transform" = "Scene ID" → ¬ "position" = "Scene ID" → ¬ "position" = "Parent" →
        TeaEditor.isOverridden TeaEditor.sampleEntity.overrideComp.properties
          ("Transform" ++ "/" ++ "position") = false →
        ∀ v, TeaEditor.lookupAssoc
            [("position", TeaEditor.Val.vint 3), ("locked", TeaEditor.Val.vint 9)] "position" =
            some v →
          TeaEditor.lookupAssoc ps' "position" = some v)) :=
  ⟨by decide, by decide, by decide, by decide, by decide, by decide, by decide, by decide,
    C1_amended_override_protection 5 TeaEditor.sampleEd TeaEditor.sampleCts
      [TeaEditor.sampleEntity] 0 TeaEditor.sampleEntity
      ⟨"Transform", [("position", TeaEditor.Val.vint 0), ("locked", TeaEditor.Val.vint 7)]⟩
      [("position", TeaEditor.Val.vint 3), ("locked", TeaEditor.Val.vint 9)]
      [("position", TeaEditor.Val.vint 0), ("locked", TeaEditor.Val.vint 7)] "position"
      (by decide) (by decide) (by decide) (by decide) (by decide) (by decide) (by decide)
      (by decide)⟩

/-- C5: during synchronization of a matching instance, a registered component
type (other than the protected structural names "Scene ID", "UUIDComponent"
and "OverrideComponent") that is absent from the master document and present
on the instance is detached when the override ledger's component list does
not record it as locally added, and is preserved with its exact prior value
when the ledger does record it. -/
theorem C5_component_remove_rule (handle : Nat) (ed : TeaEditor.EntityData)
    (cts : List TeaEditor.ComponentType) (es : List TeaEditor.Entity) (i : Nat)
    (e : TeaEditor.Entity) (ctT : TeaEditor.ComponentType) (ps : TeaEditor.Props)
    (he : es[i]? = some e)
    (hmatch : e.overrideComp.masterPrefabHandle = handle)
    (hnodup : (cts.map TeaEditor.ComponentType.name).Nodup)
    (hmem : ctT ∈ cts)
    (hsc : ¬ ctT.name = "Scene ID") (huu : ¬ ctT.name = "UUIDComponent")
    (hoc : ¬ ctT.name = "OverrideComponent")
    (hmaster : TeaEditor.lookupAssoc ed ctT.name = none)
    (hinst : TeaEditor.lookupAssoc e.comps ctT.name = some ps) :
    (TeaEditor.updateAllPrefabInstance handle
        (TeaEditor.PrefabFile.wellFormed (TeaEditor.RDoc.withEntity ed)) cts es).1[i]? =
      some (TeaEditor.updateEntity ed cts e) ∧
    (TeaEditor.localAdded e.overrideComp.components ctT.name = false →
      (TeaEditor.updateEntity ed cts e).hasComponent ctT.name = false) ∧
    (TeaEditor.localAdded e.overrideComp.components ctT.name = true →
      TeaEditor.lookupAssoc (TeaEditor.updateEntity ed cts e).comps ctT.name = some ps) := by
  refine ⟨TeaEditor.updateAllPrefabInstance_getElem_match handle ed cts es i e he hmatch,
    ?_, ?_⟩
  · intro hl
    unfold TeaEditor.Entity.hasComponent
    rw [TeaEditor.lookupAssoc_updateEntity_remove ed cts ctT e ps hnodup hmem hsc huu hoc
      hmaster hinst, hl]
    rfl
  · intro hl
    rw [TeaEditor.lookupAssoc_updateEntity_remove ed cts ctT e ps hnodup hmem hsc huu hoc
      hmaster hinst, hl]
    rfl

/-- C5 witness: on the sample instance, the SoundComponent — present locally,
absent from the master, and not recorded in the ledger — is detached by the
synchronization pass. -/
theorem C5_witness :
    (([TeaEditor.sampleEntity] : List TeaEditor.Entity)[0]? = some TeaEditor.sampleEntity) ∧
    (TeaEditor.sampleEntity.overrideComp.masterPrefabHandle = 5) ∧
    ((TeaEditor.sampleCts.map TeaEditor.ComponentType.name).Nodup) ∧
    ((⟨"SoundComponent", [("volume", TeaEditor.Val.vint 1)]⟩ : TeaEditor.ComponentType) ∈
      TeaEditor.sampleCts) ∧
    (¬ "SoundComponent" = "Scene ID") ∧
    (¬ "SoundComponent" = "UUIDComponent") ∧
    (¬ "SoundComponent" = "OverrideComponent") ∧
    (TeaEditor.lookupAssoc TeaEditor.sampleEd "SoundComponent" = none) ∧
    (TeaEditor.lookupAssoc TeaEditor.sampleEntity.comps "SoundComponent" =
      some [("volume", TeaEditor.Val.vint 2)]) ∧
    ((TeaEditor.updateAllPrefabInstance 5
        (TeaEditor.PrefabFile.wellFormed (TeaEditor.RDoc.withEntity TeaEditor.sampleEd))
        TeaEditor.sampleCts [TeaEditor.sampleEntity]).1[0]? =
      some (TeaEditor.updateEntity TeaEditor.sampleEd TeaEditor.sampleCts
        TeaEditor.sampleEntity) ∧
    (TeaEditor.localAdded TeaEditor.sampleEntity.overrideComp.components "SoundComponent" =
        false →
      (TeaEditor.updateEntity TeaEditor.sampleEd TeaEditor.sampleCts
        TeaEditor.sampleEntity).hasComponent "SoundComponent" = false) ∧
    (TeaEditor.localAdded TeaEditor.sampleEntity.overrideComp.components "SoundComponent" =
        true →
      TeaEditor.lookupAssoc (TeaEditor.updateEntity TeaEditor.sampleEd TeaEditor.sampleCts
          TeaEditor.sampleEntity).comps "SoundComponent" =
        some [("volume", TeaEditor.Val.vint 2)])) :=
  ⟨by decide, by decide, by decide, by decide, by decide, by decide, by decide, by decide,
    by decide,
    C5_component_remove_rule 5 TeaEditor.sampleEd TeaEditor.sampleCts
      [TeaEditor.sampleEntity] 0 TeaEditor.sampleEntity
      ⟨"SoundComponent", [("volume", TeaEditor.Val.vint 1)]⟩
      [("volume", TeaEditor.Val.vint 2)]
      (by decide) (by decide) (by decide) (by decide) (by decide) (by decide) (by decide)
      (by decide) (by decide)⟩

/-- C6: during synchronization of a matching instance, a registered component
type (other than "Scene ID" and the hierarchy-link names "Child" and
"Parent") present in the master document, absent from the instance and not
recorded as locally added is attached with default-constructed state, and the
property-sync step then fills it: every descriptor property not protected and
not overridden whose value the master defines gets the master's value, and
every property the master does not define keeps its default value. -/
theorem C6_component_add_rule (handle : Nat) (ed : TeaEditor.EntityData)
    (cts : List TeaEditor.ComponentType) (es : List TeaEditor.Entity) (i : Nat)
    (e : TeaEditor.Entity) (ctT : TeaEditor.ComponentType) (cd : TeaEditor.ComponentData)
    (he : es[i]? = some e)
    (hmatch : e.overrideComp.masterPrefabHandle = handle)
    (hnodup : (cts.map TeaEditor.ComponentType.name).Nodup)
    (hmem : ctT ∈ cts)
    (hsc : ¬ ctT.name = "Scene ID") (hch : ¬ ctT.name = "Child")
    (hpa : ¬ ctT.name = "Parent")
    (hmaster : TeaEditor.lookupAssoc ed ctT.name = some cd)
    (habsent : TeaEditor.lookupAssoc e.comps ctT.name = none)
    (hlocal : TeaEditor.localAdded e.overrideComp.components ctT.name = false)
    (hpnodup : (ctT.props.map Prod.fst).Nodup) :
    ∃ ps',
      (TeaEditor.updateAllPrefabInstance handle
          (TeaEditor.PrefabFile.wellFormed (TeaEditor.RDoc.withEntity ed)) cts es).1[i]? =
        some (TeaEditor.updateEntity ed cts e) ∧
      TeaEditor.lookupAssoc (TeaEditor.updateEntity ed cts e).comps ctT.name = some ps' ∧
      ∀ q d, (q, d) ∈ ctT.props →
        ((¬ q = "Scene ID" → ¬ q = "Parent" →
          TeaEditor.isOverridden e.overrideComp.properties (ctT.name ++ "/" ++ q) = false →
          ∀ v, TeaEditor.lookupAssoc cd q = some v →
            TeaEditor.lookupAssoc ps' q = some v) ∧
         (TeaEditor.lookupAssoc cd q = none → TeaEditor.lookupAssoc ps' q = some d) ∧
         ((q = "Scene ID" ∨ q = "Parent" ∨
            TeaEditor.isOverridden e.overrideComp.properties (ctT.name ++ "/" ++ q) = true) →
          TeaEditor.lookupAssoc ps' q = some d)) := by
  refine ⟨TeaEditor.syncProps e.overrideComp ctT.name cd (ctT.props.map Prod.fst) ctT.props,
    TeaEditor.updateAllPrefabInstance_getElem_match handle ed cts es i e he hmatch,
    TeaEditor.lookupAssoc_updateEntity_add ed cts ctT cd e hnodup hmem hsc hch hpa hmaster
      habsent hlocal, ?_⟩
  intro q d hqd
  have hqmem : q ∈ ctT.props.map Prod.fst := List.mem_map.mpr ⟨(q, d), hqd, rfl⟩
  have hdef : TeaEditor.lookupAssoc ctT.props q = some d :=
    TeaEditor.lookupAssoc_of_mem_nodup _ hpnodup _ _ hqd
  refine ⟨?_, ?_, ?_⟩
  · intro hq1 hq2 hovf v hv
    have hw : TeaEditor.writesProp e.overrideComp ctT.name cd q = some v := by
      unfold TeaEditor.writesProp
      rw [if_neg hq1, if_neg hq2, if_neg (by simp [hovf]), hv]
    rw [TeaEditor.lookupAssoc_syncProps, hw, if_pos hqmem, hdef]
    rfl
  · intro hcd
    have hw : TeaEditor.writesProp e.overrideComp ctT.name cd q = none := by
      unfold TeaEditor.writesProp
      by_cases hq1 : q = "Scene ID"
      · rw [if_pos hq1]
      · rw [if_neg hq1]
        by_cases hq2 : q = "Parent"
        · rw [if_pos hq2]
        · rw [if_neg hq2]
          by_cases hq3 : TeaEditor.isOverridden e.overrideComp.properties
              (ctT.name ++ "/" ++ q) = true
          · rw [if_pos hq3]
          · rw [if_neg hq3]
            exact hcd
    rw [TeaEditor.lookupAssoc_syncProps, hw]
    split <;> exact hdef
  · intro hdis
    have hw : TeaEditor.writesProp e.overrideComp ctT.name cd q = none := by
      unfold TeaEditor.writesProp
      by_cases hq1 : q = "Scene ID"
      · rw [if_pos hq1]
      · rw [if_neg hq1]
        by_cases hq2 : q = "Parent"
        · rw [if_pos hq2]
        · rw [if_neg hq2]
          rcases hdis with h | h | h
          · exact absurd h hq1
          · exact absurd h hq2
          · rw [if_pos h]
    rw [TeaEditor.lookupAssoc_syncProps, hw]
    split <;> exact hdef

/-- C6 witness: on the sample instance, the Tag component — present in the
master, absent locally, not ledger-recorded — is attached and its label
property is filled with the master's value. -/
theorem C6_witness :
    (([TeaEditor.sampleEntity] : List TeaEditor.Entity)[0]? = some TeaEditor.sampleEntity) ∧
    (TeaEditor.sampleEntity.overrideComp.masterPrefabHandle = 5) ∧
    ((TeaEditor.sampleCts.map TeaEditor.ComponentType.name).Nodup) ∧
    ((⟨"Tag", [("label", TeaEditor.Val.vstr "")]⟩ : TeaEditor.ComponentType) ∈
      TeaEditor.sampleCts) ∧
    (¬ "Tag" = "Scene ID") ∧
    (¬ "Tag" = "Child") ∧
    (¬ "Tag" = "Parent") ∧
    (TeaEditor.lookupAssoc TeaEditor.sampleEd "Tag" =
      some [("label", TeaEditor.Val.vstr "Enemy")]) ∧
    (TeaEditor.lookupAssoc TeaEditor.sampleEntity.comps "Tag" = none) ∧
    (TeaEditor.localAdded TeaEditor.sampleEntity.overrideComp.components "Tag" = false) ∧
    (((⟨"Tag", [("label", TeaEditor.Val.vstr "")]⟩ :
        TeaEditor.ComponentType).props.map Prod.fst).Nodup) ∧
    (∃ ps',
      (TeaEditor.updateAllPrefabInstance 5
          (TeaEditor.PrefabFile.wellFormed (TeaEditor.RDoc.withEntity TeaEditor.sampleEd))
          TeaEditor.sampleCts [TeaEditor.sampleEntity]).1[0]? =
        some (TeaEditor.updateEntity TeaEditor.sampleEd TeaEditor.sampleCts
          TeaEditor.sampleEntity) ∧
      TeaEditor.lookupAssoc (TeaEditor.updateEntity TeaEditor.sampleEd TeaEditor.sampleCts
          TeaEditor.sampleEntity).comps "Tag" = some ps' ∧
      ∀ q d, (q, d) ∈ (⟨"Tag", [("label", TeaEditor.Val.vstr "")]⟩ :
          TeaEditor.ComponentType).props →
        ((¬ q = "Scene ID" → ¬ q = "Parent" →
          TeaEditor.isOverridden TeaEditor.sampleEntity.overrideComp.properties
            ("Tag" ++ "/" ++ q) = false →
          ∀ v, TeaEditor.lookupAssoc [("label", TeaEditor.Val.vstr "Enemy")] q = some v →
            TeaEditor.lookupAssoc ps' q = some v) ∧
         (TeaEditor.lookupAssoc [("label", TeaEditor.Val.vstr "Enemy")] q = none →
          TeaEditor.lookupAssoc ps' q = some d) ∧
         ((q = "Scene ID" ∨ q = "Parent" ∨
            TeaEditor.isOverridden TeaEditor.sampleEntity.overrideComp.properties
              ("Tag" ++ "/" ++ q) = true) →
          TeaEditor.lookupAssoc ps' q = some d))) :=
  ⟨by decide, by decide, by decide, by decide, by decide, by decide, by decide, by decide,
    by decide, by decide, by decide,
    C6_component_add_rule 5 TeaEditor.sampleEd TeaEditor.sampleCts
      [TeaEditor.sampleEntity] 0 TeaEditor.sampleEntity
      ⟨"Tag", [("label", TeaEditor.Val.vstr "")]⟩
      [("label", TeaEditor.Val.vstr "Enemy")]
      (by decide) (by decide) (by decide) (by decide) (by decide) (by decide) (by decide)
      (by decide) (by decide) (by decide) (by decide)⟩
